import Mathlib

/-!
Verification development for the mcp-bridge-api client scripts.

The repository consists of Python client scripts that talk to a remote
"MCP Bridge" HTTP service.  This file gives a shallow embedding of the
script functions the claims are about:

* a JSON value model `Json` together with `jsonLoads`, a model of Python's
  `json.loads` (restricted to integer numerals and the common string
  escapes; every concrete input used below is within this fragment);
* models of the Python dictionary/list operations the scripts use
  (`getItem` for `d[k]`, `getIndex0` for `xs[0]`, `dict_get` for `d.get(k)`);
* the HTTP layer abstracted as the response the remote bridge returns
  (`HttpResponse`, `ReqOutcome`); a raised Python exception is an
  `Except.error` carrying a `PyErr`;
* the script functions themselves, translated clause by clause from the
  Python source (llm_test.py, access-bridge/basic_example.py,
  access-bridge/client.py, example_client.py, connect_your_server.py).
-/

/-- JSON values as Python's json module produces them, with numbers
restricted to integers (no concrete input below uses a float). -/
inductive Json where
  | null : Json
  | bool : Bool → Json
  | num : Int → Json
  | str : String → Json
  | arr : List Json → Json
  | obj : List (String × Json) → Json

/-- Python exceptions the scripts can raise or catch. -/
inductive PyErr where
  | keyError : PyErr
  | indexError : PyErr
  | typeError : PyErr
  | attrError : PyErr
  | jsonError : PyErr
  | connError : PyErr
  | httpError : Nat → PyErr

/-- An HTTP response from the bridge: status code and raw body text. -/
structure HttpResponse where
  status : Nat
  body : String

/-- Outcome of one `requests` call: either a response came back, or the
request itself failed with a `requests.RequestException` (connection
error, timeout, ...). -/
inductive ReqOutcome where
  | success : HttpResponse → ReqOutcome
  | reqError : ReqOutcome

/-- Model of `response.raise_for_status()`: raises `HTTPError` for
4xx and 5xx status codes and does nothing otherwise. -/
def raise_for_status (r : HttpResponse) : Except PyErr Unit :=
  if 400 ≤ r.status ∧ r.status < 600 then Except.error (PyErr.httpError r.status)
  else Except.ok ()

/-- First binding of a key in an association list (Python dicts built by
`json.loads` never hold a key twice, see `insertKey`). -/
def lookupField : List (String × Json) → String → Option Json
  | [], _ => none
  | (k1, v1) :: rest, k => if k1 = k then some v1 else lookupField rest k

/-- Python dict assignment `d[k] = v`: replaces the value in place when the
key exists, appends the binding otherwise. -/
def insertKey : List (String × Json) → String → Json → List (String × Json)
  | [], k, v => [(k, v)]
  | (k1, v1) :: rest, k, v =>
    if k1 = k then (k1, v) :: rest else (k1, v1) :: insertKey rest k v

/-- Python `k in d` on a dict. -/
def hasKey (fields : List (String × Json)) (k : String) : Bool :=
  fields.any (fun kv => kv.1 == k)

/-- Python subscript `d[k]` with a string key: a dict yields the value or
raises `KeyError`; any other value raises `TypeError`. -/
def getItem (j : Json) (k : String) : Except PyErr Json :=
  match j with
  | Json.obj fields =>
    match lookupField fields k with
    | some v => Except.ok v
    | none => Except.error PyErr.keyError
  | _ => Except.error PyErr.typeError

/-- Python subscript `xs[0]`: a list yields its head or raises
`IndexError`; a string yields its first character; anything else raises
`TypeError`. -/
def getIndex0 (j : Json) : Except PyErr Json :=
  match j with
  | Json.arr (x :: _) => Except.ok x
  | Json.arr [] => Except.error PyErr.indexError
  | Json.str s =>
    match s.data with
    | c :: _ => Except.ok (Json.str (String.mk [c]))
    | [] => Except.error PyErr.indexError
  | _ => Except.error PyErr.typeError

/-- Python `d.get(k)` (default `None`): total on dicts, raises
`AttributeError` on anything that is not a dict. -/
def dict_get (j : Json) (k : String) : Except PyErr Json :=
  match j with
  | Json.obj fields => Except.ok ((lookupField fields k).getD Json.null)
  | _ => Except.error PyErr.attrError

/-- Python `d.get(k, dflt)`. -/
def dict_get2 (j : Json) (k : String) (dflt : Json) : Except PyErr Json :=
  match j with
  | Json.obj fields => Except.ok ((lookupField fields k).getD dflt)
  | _ => Except.error PyErr.attrError

/-! ## A model of `json.loads`

A fuel-indexed recursive-descent reader for the JSON fragment the scripts
exchange: `null`, `true`, `false`, integers, strings with the common
escapes, arrays and objects.  Fuel is structural, so every function below
reduces definitionally on concrete input. -/

/-- The character `"` (written by code to stay clear of quoting). -/
def quoteC : Char := Char.ofNat 34

/-- The character `\`. -/
def backslashC : Char := Char.ofNat 92

/-- The character `%`. -/
def percentC : Char := Char.ofNat 37

/-- The left-brace character. -/
def lbraceC : Char := Char.ofNat 123

/-- The right-brace character. -/
def rbraceC : Char := Char.ofNat 125

/-- Skip JSON whitespace. -/
def skipWs : List Char → List Char
  | c :: cs => if c.isWhitespace then skipWs cs else c :: cs
  | [] => []

/-- Resolve a single-character JSON string escape. -/
def unescapeChar (c : Char) : Option Char :=
  if c = quoteC then some quoteC
  else if c = backslashC then some backslashC
  else if c = '/' then some '/'
  else if c = 'n' then some (Char.ofNat 10)
  else if c = 't' then some (Char.ofNat 9)
  else if c = 'r' then some (Char.ofNat 13)
  else if c = 'b' then some (Char.ofNat 8)
  else if c = 'f' then some (Char.ofNat 12)
  else none

/-- Read the body of a JSON string after the opening quote; returns the
string and the input after the closing quote. -/
def parseStrBody : Nat → List Char → Option (String × List Char)
  | 0, _ => none
  | _ + 1, [] => none
  | fuel + 1, c :: rest =>
    if c = quoteC then some ("", rest)
    else if c = backslashC then
      match rest with
      | e :: rest2 =>
        match unescapeChar e with
        | some ec =>
          match parseStrBody fuel rest2 with
          | some (s, r) => some (String.mk (ec :: s.data), r)
          | none => none
        | none => none
      | [] => none
    else if c.toNat < 32 then none
    else
      match parseStrBody fuel rest with
      | some (s, r) => some (String.mk (c :: s.data), r)
      | none => none

/-- Read a run of decimal digits. -/
def parseDigits : Nat → List Char → Nat → Option (Nat × List Char)
  | 0, _, _ => none
  | _ + 1, [], acc => some (acc, [])
  | fuel + 1, c :: rest, acc =>
    if c.isDigit then parseDigits fuel rest (acc * 10 + (c.toNat - 48))
    else some (acc, c :: rest)

mutual

/-- Read one JSON value (after no whitespace skipping; callers skip). -/
def parseVal : Nat → List Char → Option (Json × List Char)
  | 0, _ => none
  | fuel + 1, cs =>
    match skipWs cs with
    | [] => none
    | c :: rest =>
      if c = quoteC then
        match parseStrBody fuel rest with
        | some (s, r) => some (Json.str s, r)
        | none => none
      else if c = lbraceC then parseObjBody fuel rest []
      else if c = '[' then parseArrBody fuel rest []
      else if c = 't' then
        match rest with
        | 'r' :: 'u' :: 'e' :: r => some (Json.bool true, r)
        | _ => none
      else if c = 'f' then
        match rest with
        | 'a' :: 'l' :: 's' :: 'e' :: r => some (Json.bool false, r)
        | _ => none
      else if c = 'n' then
        match rest with
        | 'u' :: 'l' :: 'l' :: r => some (Json.null, r)
        | _ => none
      else if c = '-' then
        match rest with
        | d :: r2 =>
          if d.isDigit then
            if d == '0' && (match r2 with | d2 :: _ => d2.isDigit | [] => false) then none
            else
              match parseDigits fuel r2 (d.toNat - 48) with
              | some (n, r) => some (Json.num (-(Int.ofNat n)), r)
              | none => none
          else none
        | [] => none
      else if c.isDigit then
        if c == '0' && (match rest with | d2 :: _ => d2.isDigit | [] => false) then none
        else
          match parseDigits fuel rest (c.toNat - 48) with
          | some (n, r) => some (Json.num (Int.ofNat n), r)
          | none => none
      else none

/-- Read the fields of an object after the opening brace. -/
def parseObjBody : Nat → List Char → List (String × Json) → Option (Json × List Char)
  | 0, _, _ => none
  | fuel + 1, cs, acc =>
    match skipWs cs with
    | [] => none
    | c :: rest =>
      if c == rbraceC && acc.isEmpty then some (Json.obj [], rest)
      else if c = quoteC then
        match parseStrBody fuel rest with
        | some (k, r1) =>
          match skipWs r1 with
          | ':' :: r2 =>
            match parseVal fuel r2 with
            | some (v, r3) =>
              match skipWs r3 with
              | ',' :: r4 => parseObjBody fuel r4 (insertKey acc k v)
              | d :: r5 =>
                if d = rbraceC then some (Json.obj (insertKey acc k v), r5) else none
              | [] => none
            | none => none
          | _ => none
        | none => none
      else none

/-- Read the items of an array after the opening bracket. -/
def parseArrBody : Nat → List Char → List Json → Option (Json × List Char)
  | 0, _, _ => none
  | fuel + 1, cs, acc =>
    match skipWs cs with
    | [] => none
    | c :: rest =>
      if c == ']' && acc.isEmpty then some (Json.arr [], rest)
      else
        match parseVal fuel (c :: rest) with
        | some (v, r1) =>
          match skipWs r1 with
          | ',' :: r2 => parseArrBody fuel r2 (acc ++ [v])
          | ']' :: r3 => some (Json.arr (acc ++ [v]), r3)
          | _ => none
        | none => none

end

/-- Model of `json.loads`: the whole input must be one JSON value plus
whitespace, otherwise the call raises `json.JSONDecodeError` (modelled as
`none`). -/
def jsonLoads (s : String) : Option Json :=
  match parseVal (s.data.length * 2 + 4) s.data with
  | some (v, rest) => if skipWs rest = [] then some v else none
  | none => none

/-! ## String utilities

Models of the Python string operations the scripts use, written over
`List Char` with structural (or fuel-indexed) recursion so that they
reduce definitionally. -/

/-- Drop leading whitespace. -/
def dropWs (cs : List Char) : List Char := cs.dropWhile (fun c => c.isWhitespace)

/-- Python `s.strip()`: drop whitespace from both ends. -/
def trimChars (cs : List Char) : List Char := (dropWs (dropWs cs).reverse).reverse

/-- Python `s.strip()` on strings. -/
def stripStr (s : String) : String := String.mk (trimChars s.data)

/-- Whether `pre` is a prefix of `cs`. -/
def isPrefixChars : List Char → List Char → Bool
  | [], _ => true
  | _ :: _, [] => false
  | a :: as, b :: bs => a == b && isPrefixChars as bs

/-- Worker for `splitOnChars`, with fuel (one unit per consumed character)
and an accumulator of the current piece, reversed. -/
def splitOnAuxC (sep : List Char) : Nat → List Char → List Char → List (List Char)
  | 0, cs, acc => [acc.reverse ++ cs]
  | _ + 1, [], acc => [acc.reverse]
  | fuel + 1, c :: rest, acc =>
    if isPrefixChars sep (c :: rest) then
      acc.reverse :: splitOnAuxC sep fuel (List.drop (sep.length - 1) rest) []
    else splitOnAuxC sep fuel rest (c :: acc)

/-- Python `s.split(sep)` for a non-empty separator: non-overlapping
left-to-right matches, empty pieces kept. -/
def splitOnChars (cs sep : List Char) : List (List Char) :=
  splitOnAuxC sep (cs.length + 1) cs []

/-- Python `sep.join(pieces)`. -/
def intercalateChars (sep : List Char) : List (List Char) → List Char
  | [] => []
  | [x] => x
  | x :: xs => x ++ sep ++ intercalateChars sep xs

/-- Python `s.split()` (no argument): the maximal whitespace-free words,
empty pieces dropped.  The accumulator holds the current word reversed. -/
def wordsAux : List Char → List Char → List (List Char)
  | [], acc => if acc.isEmpty then [] else [acc.reverse]
  | c :: rest, acc =>
    if c.isWhitespace then
      if acc.isEmpty then wordsAux rest [] else acc.reverse :: wordsAux rest []
    else wordsAux rest (c :: acc)

/-- Python `s.split()` on a character list. -/
def wordsOf (cs : List Char) : List (List Char) := wordsAux cs []

/-- Index of the first occurrence of a character. -/
def idxOf? (cs : List Char) (c : Char) : Option Nat :=
  match cs with
  | [] => none
  | x :: rest => if x = c then some 0 else (idxOf? rest c).map (fun k => k + 1)

/-- Index of the last occurrence of a character (Python `s.rfind`). -/
def lastIdxOf? (cs : List Char) (c : Char) : Option Nat :=
  (idxOf? cs.reverse c).map (fun k => cs.length - 1 - k)

/-! ## llm_test.py: `process_llm_response`

The translation follows llm_test.py lines 322-414 clause by clause.  The
body of the Python `try` cannot raise on a string input (every `json.loads`
is wrapped in its own handler), so the outer `except` branch is dead code
and the embedding is the `try` body. -/

/-- Model of the inner helper `clean_and_parse_json` (llm_test.py lines
327-335): collapse all whitespace runs to single spaces, then `json.loads`,
with `None` on a decode error. -/
def clean_and_parse_json (json_text : String) : Option Json :=
  jsonLoads (String.mk (intercalateChars [' '] (wordsOf json_text.data)))

/-- The guard `if response_data and isinstance(response_data, dict)`:
accepts exactly a parsed non-empty object (an empty dict is falsy). -/
def truthyDict : Option Json → Option (List (String × Json))
  | some (Json.obj (f :: fs)) => some (f :: fs)
  | _ => none

/-- The key-filling both branches perform: add `tool_call = None` when the
key is absent, then add `response = non_json_text` when that key is absent
(`non_json_text or ""` is the identity on strings). -/
def fillKeys (fields : List (String × Json)) (non_json_text : String) : Json :=
  let f1 := if hasKey fields "tool_call" then fields else fields ++ [("tool_call", Json.null)]
  let f2 := if hasKey f1 "response" then f1 else f1 ++ [("response", Json.str non_json_text)]
  Json.obj f2

/-- Parse a candidate and, when it is accepted (a truthy dict), fill the
missing keys using the given non-JSON remainder text. -/
def acceptCand (cand fill : String) : Option Json :=
  match truthyDict (clean_and_parse_json cand) with
  | some fields => some (fillKeys fields fill)
  | none => none

/-- Step 1 (llm_test.py lines 340-354): the trailing block from the last
left brace to the end of the text, with the text before that brace as the
response filler. -/
def cand1 (text : String) : Option (String × String) :=
  let parts := splitOnChars text.data [lbraceC]
  if parts.length > 1 then
    some (String.mk ([lbraceC] ++ trimChars (parts.getLastD [])),
          String.mk (trimChars (intercalateChars [lbraceC] parts.dropLast)))
  else none

/-- Step 2 (llm_test.py lines 357-369): the contents of the first
fenced json code block, with the text before the fence as the filler. -/
def cand2 (text : String) : Option (String × String) :=
  let parts := splitOnChars text.data ("```json".data)
  if parts.length > 1 then
    some (String.mk (trimChars ((splitOnChars (parts.getD 1 []) ("```".data)).headD [])),
          String.mk (trimChars (parts.headD [])))
  else none

/-- Step 3 inner loop (llm_test.py lines 373-384): try every non-blank
piece of the text split on the triple-backtick fence, in order. -/
def step3loop (fill : String) : List (List Char) → Option Json
  | [] => none
  | p :: rest =>
    if trimChars p ≠ [] then
      match acceptCand (String.mk (trimChars p)) fill with
      | some j => some j
      | none => step3loop fill rest
    else step3loop fill rest

/-- The step 3 candidates as a list (the same pieces `step3loop` tries). -/
def cand3 (text : String) : List (String × String) :=
  let parts := splitOnChars text.data ("```".data)
  if parts.length > 1 then
    (parts.filter (fun p => trimChars p ≠ [])).map
      (fun p => (String.mk (trimChars p), String.mk (trimChars (parts.headD []))))
  else []

/-- Step 4 (llm_test.py lines 387-400): the substring from the first left
brace to the last right brace, with the text outside it as the filler. -/
def cand4 (text : String) : Option (String × String) :=
  let cs := text.data
  match idxOf? cs lbraceC, lastIdxOf? cs rbraceC with
  | some st, some en =>
    if st < en + 1 then
      some (String.mk ((cs.drop st).take (en + 1 - st)),
            String.mk (trimChars (cs.take st ++ cs.drop (en + 1))))
    else none
  | _, _ => none

/-- The fallback (llm_test.py lines 403-406). -/
def defaultResp (text : String) : Json :=
  Json.obj [("tool_call", Json.null), ("response", Json.str (stripStr text))]

/-- Model of `process_llm_response` (llm_test.py lines 322-414): the four
extraction steps in source order, then the fallback. -/
def process_llm_response (text : String) : Json :=
  match (cand1 text).bind (fun cf => acceptCand cf.1 cf.2) with
  | some j => j
  | none =>
    match (cand2 text).bind (fun cf => acceptCand cf.1 cf.2) with
    | some j => j
    | none =>
      match
        (let parts := splitOnChars text.data ("```".data)
         if parts.length > 1 then
           step3loop (String.mk (trimChars (parts.headD []))) parts
         else none) with
      | some j => j
      | none =>
        match (cand4 text).bind (fun cf => acceptCand cf.1 cf.2) with
        | some j => j
        | none => defaultResp text

/-- The amended specification of `process_llm_response`: all candidate
substrings in heuristic order -- the trailing brace block, the first fenced
json block, every non-blank piece of the triple-backtick split, the first
brace to the last brace -- and the first whose whitespace-normalised text
parses to a non-empty JSON object wins, with the missing keys filled;
otherwise the fallback object. -/
def candidateList (text : String) : List (String × String) :=
  (cand1 text).toList ++ ((cand2 text).toList ++ (cand3 text ++ (cand4 text).toList))

/-- First accepted candidate of a list. -/
def firstAccepted : List (String × String) → Option Json
  | [] => none
  | cf :: rest =>
    match acceptCand cf.1 cf.2 with
    | some j => some j
    | none => firstAccepted rest

/-- The specification-side description of `process_llm_response` built from
the amended claim's words. -/
def process_llm_response_amended (text : String) : Json :=
  (firstAccepted (candidateList text)).getD (defaultResp text)

/-! ## llm_test.py: HTTP helpers

The HTTP transport is abstracted as an oracle `t : Nat → ReqOutcome`
giving the outcome of the n-th request the script issues, together with
the index of the next request.  Each helper returns the list of request
URLs it issued, the next request index, and its Python result (an
`Except`, since an uncaught exception escapes to the caller). -/

/-- Model of `get_all_servers` (llm_test.py lines 156-164): one GET of
`/servers`; a `requests.RequestException` (including an HTTP error status
and an unparsable body, whose `JSONDecodeError` is a `RequestException`)
is caught, printed and turned into `[]`; `.get("servers", [])` on a
non-dict body raises `AttributeError`, which no handler catches. -/
def get_all_servers (mcp_bridge_url : String) (t : Nat → ReqOutcome) (i : Nat) :
    List String × Nat × Except PyErr Json :=
  let req := mcp_bridge_url ++ "/servers"
  match t i with
  | ReqOutcome.reqError => ([req], i + 1, Except.ok (Json.arr []))
  | ReqOutcome.success r =>
    match raise_for_status r with
    | Except.error _ => ([req], i + 1, Except.ok (Json.arr []))
    | Except.ok _ =>
      match jsonLoads r.body with
      | none => ([req], i + 1, Except.ok (Json.arr []))
      | some (Json.obj fields) =>
        ([req], i + 1, Except.ok ((lookupField fields "servers").getD (Json.arr [])))
      | some _ => ([req], i + 1, Except.error PyErr.attrError)

/-- Model of `get_server_tools` (llm_test.py lines 166-174), the same
shape over `/servers/{id}/tools` and the `tools` key. -/
def get_server_tools (server_id : String) (mcp_bridge_url : String)
    (t : Nat → ReqOutcome) (i : Nat) : List String × Nat × Except PyErr Json :=
  let req := mcp_bridge_url ++ "/servers/" ++ server_id ++ "/tools"
  match t i with
  | ReqOutcome.reqError => ([req], i + 1, Except.ok (Json.arr []))
  | ReqOutcome.success r =>
    match raise_for_status r with
    | Except.error _ => ([req], i + 1, Except.ok (Json.arr []))
    | Except.ok _ =>
      match jsonLoads r.body with
      | none => ([req], i + 1, Except.ok (Json.arr []))
      | some (Json.obj fields) =>
        ([req], i + 1, Except.ok ((lookupField fields "tools").getD (Json.arr [])))
      | some _ => ([req], i + 1, Except.error PyErr.attrError)

/-! ## llm_test.py: `confirm_operation` -/

/-- The confirmation record `confirm_operation` displays before asking;
the panel subscripts every one of these fields. -/
structure ConfirmationData where
  method : String
  server_id : String
  tool_name : String
  risk_level : String
  risk_description : String
  expires_at : String
  confirmation_id : String

/-- A POST the script sends: target URL and JSON body. -/
structure PostRequest where
  url : String
  payload : Json

/-- The literal dict returned on rejection (llm_test.py lines 318, 320). -/
def rejectedResult : Json :=
  Json.obj [("status", Json.str "rejected"), ("message", Json.str "User rejected the operation")]

/-- Model of `confirm_operation` (llm_test.py lines 282-320).  `confirmed`
is the user's answer to the prompt; `outcome` is the result of the one
POST to `/confirmations/{id}`.  Returns the issued requests and the Python
pair `(result, error)`; the error string is abstracted to a constant (in
the source it embeds the exception text). -/
def confirm_operation (cd : ConfirmationData) (confirmed : Bool)
    (outcome : ReqOutcome) (mcp_bridge_url : String) :
    List PostRequest × Option Json × Option String :=
  let url := mcp_bridge_url ++ "/confirmations/" ++ cd.confirmation_id
  if confirmed then
    match outcome with
    | ReqOutcome.reqError =>
      ([⟨url, Json.obj [("confirm", Json.bool true)]⟩], none, some "Error confirming operation")
    | ReqOutcome.success r =>
      match raise_for_status r with
      | Except.error _ =>
        ([⟨url, Json.obj [("confirm", Json.bool true)]⟩], none, some "Error confirming operation")
      | Except.ok _ =>
        match jsonLoads r.body with
        | none =>
          ([⟨url, Json.obj [("confirm", Json.bool true)]⟩], none, some "Error confirming operation")
        | some j => ([⟨url, Json.obj [("confirm", Json.bool true)]⟩], some j, none)
  else
    match outcome with
    | ReqOutcome.reqError =>
      ([⟨url, Json.obj [("confirm", Json.bool false)]⟩], some rejectedResult, none)
    | ReqOutcome.success r =>
      match raise_for_status r with
      | Except.error _ =>
        ([⟨url, Json.obj [("confirm", Json.bool false)]⟩], some rejectedResult, none)
      | Except.ok _ =>
        ([⟨url, Json.obj [("confirm", Json.bool false)]⟩], some rejectedResult, none)

/-! ## access-bridge/basic_example.py: `call_mcp_tool`

The same unwrap appears verbatim in access-bridge/advanced_example.py
lines 13-21 and inline in access-bridge/client.py lines 96-113. -/

/-- Model of `call_mcp_tool` (basic_example.py lines 13-31) applied to the
response of the POST: `raise_for_status`, parse the body, subscript
`['content'][0]['text']`, then `json.loads` of that text. -/
def call_mcp_tool (resp : HttpResponse) : Except PyErr Json :=
  match raise_for_status resp with
  | Except.error e => Except.error e
  | Except.ok _ =>
    match jsonLoads resp.body with
    | none => Except.error PyErr.jsonError
    | some mcp_response =>
      match getItem mcp_response "content" with
      | Except.error e => Except.error e
      | Except.ok content =>
        match getIndex0 content with
        | Except.error e => Except.error e
        | Except.ok first =>
          match getItem first "text" with
          | Except.error e => Except.error e
          | Except.ok result_text =>
            match result_text with
            | Json.str s =>
              match jsonLoads s with
              | some v => Except.ok v
              | none => Except.error PyErr.jsonError
            | _ => Except.error PyErr.typeError

/-! ## access-bridge/client.py: `main`'s field accesses -/

/-- The health-check accesses of `main` (client.py lines 61-63): the
script subscripts `status`, `uptime` and `serverCount` directly, with no
existence check. -/
def client_main_health (health : Json) : Except PyErr (Json × Json × Json) :=
  match getItem health "status" with
  | Except.error e => Except.error e
  | Except.ok s =>
    match getItem health "uptime" with
    | Except.error e => Except.error e
    | Except.ok u =>
      match getItem health "serverCount" with
      | Except.error e => Except.error e
      | Except.ok c => Except.ok (s, u, c)

/-! ## llm_test.py: unguarded subscripts into bridge payloads -/

/-- The per-server access of `get_all_tools` (llm_test.py line 182):
`server["id"]`, a direct subscript with no existence check. -/
def get_all_tools_server_id (server : Json) : Except PyErr Json :=
  getItem server "id"

/-- The per-tool access of `create_tools_description` (llm_test.py line
196): `tool['name']`, a direct subscript with no existence check. -/
def create_tools_description_tool_name (tool : Json) : Except PyErr Json :=
  getItem tool "name"

/-! ## example_client.py: the connection test chain -/

/-- Model of `MCPBridgeClient.health_check` (example_client.py lines
30-34): GET `/health`, `raise_for_status`, parse the body.  No handler in
this method: every exception escapes to the caller. -/
def ec_health_check (o : ReqOutcome) : Except PyErr Json :=
  match o with
  | ReqOutcome.reqError => Except.error PyErr.connError
  | ReqOutcome.success r =>
    match raise_for_status r with
    | Except.error e => Except.error e
    | Except.ok _ =>
      match jsonLoads r.body with
      | none => Except.error PyErr.jsonError
      | some j => Except.ok j

/-- Model of `MCPBridgeClient._test_connection` (example_client.py lines
21-28): call `health_check`, print `response.get('uptime', 0)`; the
handler catches every exception, prints a message, and RE-RAISES it. -/
def ec_test_connection (o : ReqOutcome) : Except PyErr Unit :=
  match ec_health_check o with
  | Except.error e => Except.error e
  | Except.ok d =>
    match dict_get2 d "uptime" (Json.num 0) with
    | Except.error e => Except.error e
    | Except.ok _ => Except.ok ()

/-- Model of `MCPBridgeClient.__init__` (example_client.py lines 15-19):
no handler; the re-raised exception escapes the constructor. -/
def ec_init (o : ReqOutcome) : Except PyErr Unit := ec_test_connection o

/-- Model of the start of `demonstrate_api` (example_client.py line 123):
it constructs the client with no handler of its own, so the exception
continues to the module-level handler. -/
def ec_demonstrate_api_start (o : ReqOutcome) : Except PyErr Unit := ec_init o

/-- The guarded health access of `demonstrate_api` (example_client.py line
128): `health.get('status')` via the Python `.get` method. -/
def ec_demo_health_status (health : Json) : Except PyErr Json :=
  dict_get health "status"

/-! ## connect_your_server.py: `connect_server` -/

/-- Model of `connect_server` (connect_your_server.py lines 72-113)
applied to the outcome of the one POST of `/servers`.  The whole body sits
in one `try` whose handlers return `False`, so a `KeyError` from the
success-branch prints (`result['id']`, `result['status']`,
`result['pid']`, and `result['risk_description']` when `risk_level` is
present) also yields `False`. -/
def connect_server (o : ReqOutcome) : Bool :=
  match o with
  | ReqOutcome.reqError => false
  | ReqOutcome.success r =>
    if r.status = 201 then
      match jsonLoads r.body with
      | some (Json.obj fields) =>
        if hasKey fields "id" && hasKey fields "status" && hasKey fields "pid" then
          if hasKey fields "risk_level" then hasKey fields "risk_description" else true
        else false
      | some _ => false
      | none => false
    else if r.status = 409 then false
    else false

/-! ## Environment variables (claim C4)

The process environment is a partial map from variable names to values,
and only two places in the repository read it:
`os.getenv('MCP_BRIDGE_URL', ...)` in access-bridge/client.py line 13 and
`os.environ.get("GEMINI_API_KEY")` in llm_test.py line 32.  `BRIDGE_URL`
in basic_example.py line 11 and advanced_example.py line 11 is a hardcoded
module constant. -/

/-- A process environment. -/
def Env : Type := String → Option String

/-- Model of `os.getenv(k, dflt)`. -/
def os_getenv (e : Env) (k dflt : String) : String := (e k).getD dflt

/-- `BASE_URL` of access-bridge/client.py line 13. -/
def client_BASE_URL (e : Env) : String :=
  os_getenv e "MCP_BRIDGE_URL" "https://mcp-bridge-api-main.onrender.com"

/-- `BRIDGE_URL` of access-bridge/basic_example.py line 11: a constant. -/
def basic_BRIDGE_URL : String := "https://mcp-bridge-api-main.onrender.com"

/-- `BRIDGE_URL` of access-bridge/advanced_example.py line 11: a constant. -/
def advanced_BRIDGE_URL : String := "https://mcp-bridge-api-main.onrender.com"

/-- `GEMINI_API_KEY` of llm_test.py line 32. -/
def llm_GEMINI_API_KEY (e : Env) : Option String := e "GEMINI_API_KEY"

/-- `MCP_BRIDGE_URL` of connect_your_server.py line 12: a constant. -/
def connect_MCP_BRIDGE_URL : String := "http://localhost:3000"

/-- Everything the scripts' configuration take from the environment,
paired with the list of environment variable names the repository reads
(the two reads above; every other URL or key is a literal). -/
def allEnvConfigs (e : Env) :
    (String × String × String × Option String × String) × List String :=
  ((client_BASE_URL e, basic_BRIDGE_URL, advanced_BRIDGE_URL,
    llm_GEMINI_API_KEY e, connect_MCP_BRIDGE_URL),
   ["MCP_BRIDGE_URL", "GEMINI_API_KEY"])

/-- Update one variable of an environment. -/
def updateEnv (e : Env) (k : String) (v : Option String) : Env :=
  fun x => if x = k then v else e x

/-! ## example_client.py: `read_resource` and percent-encoding

`read_resource` (example_client.py lines 88-96) encodes the resource URI
with `urllib.parse.quote(resource_uri, safe='')` before splicing it into
the request path.  `quote` with `safe=''` percent-encodes every UTF-8 byte
of every character outside the always-safe set (ASCII letters, digits,
`_`, `.`, `-`, `~`), with uppercase hex; `urllib.parse.unquote` decodes
maximal runs of percent-escapes as UTF-8 (errors replaced) and keeps
other characters as they are. -/

/-- The UTF-8 bytes of a Unicode scalar value. -/
def utf8EncodeNat (n : Nat) : List Nat :=
  if n < 128 then [n]
  else if n < 2048 then [192 + n / 64, 128 + n % 64]
  else if n < 65536 then [224 + n / 4096, 128 + n / 64 % 64, 128 + n % 64]
  else [240 + n / 262144, 128 + n / 4096 % 64, 128 + n / 64 % 64, 128 + n % 64]

/-- Uppercase hex digit of a value below 16. -/
def hexDigitChar (n : Nat) : Char :=
  if n < 10 then Char.ofNat (48 + n) else Char.ofNat (55 + n)

/-- Value of a hex digit character (both cases), as `unquote` reads it. -/
def hexVal (c : Char) : Option Nat :=
  if 48 ≤ c.toNat ∧ c.toNat ≤ 57 then some (c.toNat - 48)
  else if 65 ≤ c.toNat ∧ c.toNat ≤ 70 then some (c.toNat - 55)
  else if 97 ≤ c.toNat ∧ c.toNat ≤ 102 then some (c.toNat - 87)
  else none

/-- The three-character escape of one byte. -/
def pctByte (b : Nat) : List Char := [percentC, hexDigitChar (b / 16), hexDigitChar (b % 16)]

/-- The always-safe characters `quote` never encodes (with `safe=''`
nothing else is exempt). -/
def isUnreservedChar (c : Char) : Bool :=
  c.isUpper || c.isLower || c.isDigit || c = '_' || c = '.' || c = '-' || c = '~'

/-- Encoding of one character: itself when always-safe, otherwise the
percent-escapes of its UTF-8 bytes. -/
def quoteChar (c : Char) : List Char :=
  if isUnreservedChar c then [c] else ((utf8EncodeNat c.toNat).map pctByte).flatten

/-- Model of `urllib.parse.quote(s, safe='')`. -/
def quote (s : String) : String := String.mk ((s.data.map quoteChar).flatten)

/-- One token of `unquote`'s scan: a literal character or a decoded
percent-escape byte. -/
inductive PctTok where
  | lit : Char → PctTok
  | byte : Nat → PctTok

/-- Worker for `pctToks`, with one unit of fuel per produced token (a
token consumes at least one character, so the character count is enough
fuel).  A `%` not followed by two hex digits stays literal. -/
def pctToksAux : Nat → List Char → List PctTok
  | 0, _ => []
  | _ + 1, [] => []
  | fuel + 1, c :: rest =>
    if c = percentC then
      match rest with
      | h1 :: h2 :: rest2 =>
        match hexVal h1, hexVal h2 with
        | some a, some b => PctTok.byte (a * 16 + b) :: pctToksAux fuel rest2
        | _, _ => PctTok.lit c :: pctToksAux fuel rest
      | _ => PctTok.lit c :: pctToksAux fuel rest
    else PctTok.lit c :: pctToksAux fuel rest

/-- Scan a string into literal characters and percent-escape bytes. -/
def pctToks (cs : List Char) : List PctTok := pctToksAux cs.length cs

/-- The replacement character U+FFFD. -/
def replChar : Char := Char.ofNat 65533

/-- Whether a byte is a UTF-8 continuation byte. -/
def isContByte (b : Nat) : Bool := 128 ≤ b && b < 192

/-- Worker for `utf8DecodeBytes`, with one unit of fuel per produced
character (a character consumes at least one byte, so the byte count is
enough fuel).  Invalid sequences produce the replacement character
(`errors='replace'`). -/
def utf8DecodeAux : Nat → List Nat → List Char
  | 0, _ => []
  | _ + 1, [] => []
  | fuel + 1, b :: rest =>
    if b < 128 then Char.ofNat b :: utf8DecodeAux fuel rest
    else if 194 ≤ b ∧ b ≤ 223 then
      match rest with
      | b1 :: r2 =>
        if isContByte b1 then
          Char.ofNat ((b - 192) * 64 + (b1 - 128)) :: utf8DecodeAux fuel r2
        else replChar :: utf8DecodeAux fuel rest
      | [] => [replChar]
    else if 224 ≤ b ∧ b ≤ 239 then
      match rest with
      | b1 :: b2 :: r3 =>
        if isContByte b1 && isContByte b2 then
          if 2048 ≤ (b - 224) * 4096 + (b1 - 128) * 64 + (b2 - 128) ∧
             ((b - 224) * 4096 + (b1 - 128) * 64 + (b2 - 128) < 55296 ∨
              57344 ≤ (b - 224) * 4096 + (b1 - 128) * 64 + (b2 - 128)) then
            Char.ofNat ((b - 224) * 4096 + (b1 - 128) * 64 + (b2 - 128)) :: utf8DecodeAux fuel r3
          else replChar :: utf8DecodeAux fuel rest
        else replChar :: utf8DecodeAux fuel rest
      | _ => replChar :: utf8DecodeAux fuel rest
    else if 240 ≤ b ∧ b ≤ 244 then
      match rest with
      | b1 :: b2 :: b3 :: r4 =>
        if isContByte b1 && isContByte b2 && isContByte b3 then
          if 65536 ≤ (b - 240) * 262144 + (b1 - 128) * 4096 + (b2 - 128) * 64 + (b3 - 128) ∧
             (b - 240) * 262144 + (b1 - 128) * 4096 + (b2 - 128) * 64 + (b3 - 128) ≤ 1114111 then
            Char.ofNat ((b - 240) * 262144 + (b1 - 128) * 4096 + (b2 - 128) * 64 + (b3 - 128)) ::
              utf8DecodeAux fuel r4
          else replChar :: utf8DecodeAux fuel rest
        else replChar :: utf8DecodeAux fuel rest
      | _ => replChar :: utf8DecodeAux fuel rest
    else replChar :: utf8DecodeAux fuel rest

/-- Decode a byte run as UTF-8, invalid sequences replaced. -/
def utf8DecodeBytes (bs : List Nat) : List Char := utf8DecodeAux bs.length bs

/-- Flush-and-decode pass over the token stream: consecutive escape bytes
collect (reversed) in the accumulator and decode as one UTF-8 run at each
literal character and at the end. -/
def pctDecode : List PctTok → List Nat → List Char
  | [], acc => utf8DecodeBytes acc.reverse
  | PctTok.lit c :: rest, acc => utf8DecodeBytes acc.reverse ++ c :: pctDecode rest []
  | PctTok.byte b :: rest, acc => pctDecode rest (b :: acc)

/-- Model of `urllib.parse.unquote(s)` (UTF-8, errors replaced). -/
def unquote (s : String) : String := String.mk (pctDecode (pctToks s.data) [])

/-- Model of `MCPBridgeClient.read_resource`'s request URL
(example_client.py lines 88-96). -/
def read_resource_url (base_url server_id resource_uri : String) : String :=
  base_url ++ "/servers/" ++ server_id ++ "/resources/" ++ quote resource_uri

/-! ## Helper lemmas -/

/-- A key that `in` does not find is not looked up either. -/
theorem lookupField_eq_none_of_hasKey_false (fields : List (String × Json)) (k : String)
    (h : hasKey fields k = false) : lookupField fields k = none := by
  induction fields with
  | nil => rfl
  | cons kv rest ih =>
    simp only [hasKey, List.any_cons, Bool.or_eq_false_iff] at h
    simp only [lookupField]
    rcases kv with ⟨k1, v1⟩
    have hk : ¬ k1 = k := by
      intro he
      subst he
      simp at h
    rw [if_neg hk]
    exact ih (by simpa [hasKey] using h.2)

/-! ## Claim C4 -/

/-- Claim C4 counterexample: no script reads a `BRIDGE_URL` environment
variable.  The repository's environment reads are exactly
`MCP_BRIDGE_URL` and `GEMINI_API_KEY` (`allEnvConfigs`), and setting
`BRIDGE_URL` in an otherwise empty environment changes no script's
configuration, so two runs differing only in `BRIDGE_URL` cannot differ
-- against the claim that some script's behavior depends on it
(`BRIDGE_URL` in basic_example.py line 11 is a hardcoded constant). -/
theorem C4_counterexample :
    (allEnvConfigs (fun _ => none)).2.contains "BRIDGE_URL" = false ∧
    allEnvConfigs (updateEnv (fun _ => none) "BRIDGE_URL" (some "http://other")) =
      allEnvConfigs (fun _ => none) := by
  constructor
  · decide
  · rfl

/-- Claim C4 amended: the scripts' configuration depends on the
environment variables `MCP_BRIDGE_URL` (access-bridge/client.py) and
`GEMINI_API_KEY` (llm_test.py) -- two runs differing only in one of those
can differ -- while `BRIDGE_URL` is a hardcoded constant no script reads:
every configuration is invariant under any change to `BRIDGE_URL`. -/
theorem C4_amended :
    (∀ (e : Env) (v : Option String),
      allEnvConfigs (updateEnv e "BRIDGE_URL" v) = allEnvConfigs e) ∧
    client_BASE_URL (updateEnv (fun _ => none) "MCP_BRIDGE_URL" (some "http://other")) ≠
      client_BASE_URL (fun _ => none) ∧
    llm_GEMINI_API_KEY (updateEnv (fun _ => none) "GEMINI_API_KEY" (some "key")) ≠
      llm_GEMINI_API_KEY (fun _ => none) := by
  refine ⟨fun e v => ?_, by decide, by decide⟩
  simp only [allEnvConfigs, client_BASE_URL, llm_GEMINI_API_KEY, os_getenv, updateEnv]
  rw [if_neg (by decide), if_neg (by decide)]

/-! ## Claim C10 -/

/-- Claim C10: when the user declines, `confirm_operation` posts
`confirm = false` to `/confirmations/{id}` and returns the fixed
`(rejected result, no error)` pair whatever the outcome of that POST, so
the caller cannot tell an acknowledged rejection from a failed rejection
request; an error component can only come out of the accepting branch. -/
theorem C10_reject_indistinguishable :
    ∀ (cd : ConfirmationData) (o : ReqOutcome) (mcp_bridge_url : String),
      confirm_operation cd false o mcp_bridge_url =
        ([⟨mcp_bridge_url ++ "/confirmations/" ++ cd.confirmation_id,
           Json.obj [("confirm", Json.bool false)]⟩],
         some rejectedResult, none) := by
  intro cd o url
  cases o with
  | reqError => rfl
  | success r =>
    simp only [confirm_operation, Bool.false_eq_true, if_false]
    cases raise_for_status r <;> rfl

/-! ## Claim C5 -/

/-- Claim C5 counterexample: an HTTP 500 raised inside
`MCPBridgeClient.health_check` (where the request is issued) is not
caught there; `_test_connection` catches it, logs it and RE-RAISES it, so
it escapes `__init__` and surfaces in `demonstrate_api` -- beyond the
immediate caller of the function that issued the request, against the
claim that no function lets it escape to its caller's caller. -/
theorem C5_counterexample :
    ec_health_check (ReqOutcome.success ⟨500, ""⟩) = Except.error (PyErr.httpError 500) ∧
    ec_test_connection (ReqOutcome.success ⟨500, ""⟩) = Except.error (PyErr.httpError 500) ∧
    ec_demonstrate_api_start (ReqOutcome.success ⟨500, ""⟩) =
      Except.error (PyErr.httpError 500) := by
  exact ⟨rfl, rfl, rfl⟩

/-- Claim C5 amended: most call sites catch and log network errors near
the request, but example_client.py's `_test_connection` deliberately
re-raises after logging, so every HTTP error status from the health
request propagates out of `health_check`, through `_test_connection` and
`__init__`, to `demonstrate_api`'s module-level handler. -/
theorem C5_amended (r : HttpResponse) (h1 : 400 ≤ r.status) (h2 : r.status < 600) :
    ec_demonstrate_api_start (ReqOutcome.success r) =
      Except.error (PyErr.httpError r.status) := by
  simp only [ec_demonstrate_api_start, ec_init, ec_test_connection, ec_health_check,
    raise_for_status]
  rw [if_pos ⟨h1, h2⟩]

/-- Witness for the amended claim C5 at a concrete 500 response. -/
theorem C5_witness :
    400 ≤ (500 : Nat) ∧ (500 : Nat) < 600 ∧
    ec_demonstrate_api_start (ReqOutcome.success ⟨500, "oops"⟩) =
      Except.error (PyErr.httpError 500) :=
  ⟨by decide, by decide, C5_amended ⟨500, "oops"⟩ (by decide) (by decide)⟩

/-! ## Claim C3 -/

/-- Claim C3 counterexample: access-bridge/client.py's `main` subscripts
`health['status']` with no existence check, so the bridge response `{}`
(no fields) makes the access raise `KeyError` -- against the claim that
every field access is preceded by an existence check. -/
theorem C3_counterexample :
    client_main_health (Json.obj []) = Except.error PyErr.keyError := rfl

/-- Claim C3 amended: the scripts mix guarded and unguarded access.
example_client.py's `demonstrate_api` reads `health.get('status')`, which
never fails on a dict whatever its fields; but access-bridge/client.py's
`main` subscripts `health['status']` directly, and llm_test.py subscripts
`server["id"]` (`get_all_tools`, line 182) and `tool['name']`
(`create_tools_description`, line 196) directly, so a bridge payload
missing such a field raises `KeyError` at each of those accesses. -/
theorem C3_amended (fields : List (String × Json)) :
    ec_demo_health_status (Json.obj fields) =
      Except.ok ((lookupField fields "status").getD Json.null) ∧
    (hasKey fields "status" = false →
      client_main_health (Json.obj fields) = Except.error PyErr.keyError) ∧
    (hasKey fields "id" = false →
      get_all_tools_server_id (Json.obj fields) = Except.error PyErr.keyError) ∧
    (hasKey fields "name" = false →
      create_tools_description_tool_name (Json.obj fields) = Except.error PyErr.keyError) := by
  refine ⟨rfl, fun h => ?_, fun h => ?_, fun h => ?_⟩
  · simp only [client_main_health, getItem, lookupField_eq_none_of_hasKey_false fields _ h]
  · simp only [get_all_tools_server_id, getItem,
      lookupField_eq_none_of_hasKey_false fields _ h]
  · simp only [create_tools_description_tool_name, getItem,
      lookupField_eq_none_of_hasKey_false fields _ h]

/-! ## Claim C7 -/

/-- Claim C7 counterexample: the bridge answers the POST with HTTP 201 and
the body `{}`; `connect_server` then raises `KeyError` printing
`result['id']`, the catch-all handler returns `False` -- against the
claim that it returns `True` exactly when the status is 201. -/
theorem C7_counterexample :
    connect_server (ReqOutcome.success ⟨201, "\x7b\x7d"⟩) = false := rfl

/-- Claim C7 amended: `connect_server` returns `True` exactly when the
status is 201 AND the body is a JSON object holding the keys `id`,
`status` and `pid` the success branch prints (and `risk_description`
whenever `risk_level` is present); every other status (409 included),
every request failure and every malformed 201 body yields `False`, and
nothing is raised to the caller. -/
theorem C7_amended :
    connect_server ReqOutcome.reqError = false ∧
    ∀ (r : HttpResponse),
      (connect_server (ReqOutcome.success r) = true ↔
        (r.status = 201 ∧ ∃ fields, jsonLoads r.body = some (Json.obj fields) ∧
          hasKey fields "id" = true ∧ hasKey fields "status" = true ∧
          hasKey fields "pid" = true ∧
          (hasKey fields "risk_level" = true → hasKey fields "risk_description" = true))) := by
  refine ⟨rfl, fun r => ?_⟩
  simp only [connect_server]
  by_cases h201 : r.status = 201
  · rw [if_pos h201]
    cases hj : jsonLoads r.body with
    | none => simp [h201]
    | some j =>
      cases j with
      | obj fields =>
        cases hid : hasKey fields "id" <;> cases hst : hasKey fields "status" <;>
          cases hpid : hasKey fields "pid" <;> cases hrl : hasKey fields "risk_level" <;>
            cases hrd : hasKey fields "risk_description" <;> simp_all
      | null => simp [h201]
      | bool b => simp [h201]
      | num n => simp [h201]
      | str s => simp [h201]
      | arr xs => simp [h201]
  · rw [if_neg h201]
    simp [h201]

/-! ## Claim C6 -/

/-- Claim C6: for every bridge URL (and transport oracle), `get_all_servers`
and `get_server_tools` issue exactly one GET each (one request URL in the
log, next request index `i + 1`, no retry), and both a failed request and
an HTTP error status (whose `HTTPError` is a `requests.RequestException`)
yield the empty list after the printed message instead of raising. -/
theorem C6_single_request :
    ∀ (mcp_bridge_url server_id : String) (t : Nat → ReqOutcome) (i : Nat),
      ((get_all_servers mcp_bridge_url t i).1 = [mcp_bridge_url ++ "/servers"] ∧
       (get_all_servers mcp_bridge_url t i).2.1 = i + 1 ∧
       (t i = ReqOutcome.reqError →
         (get_all_servers mcp_bridge_url t i).2.2 = Except.ok (Json.arr [])) ∧
       (∀ r, t i = ReqOutcome.success r → 400 ≤ r.status → r.status < 600 →
         (get_all_servers mcp_bridge_url t i).2.2 = Except.ok (Json.arr []))) ∧
      ((get_server_tools server_id mcp_bridge_url t i).1 =
         [mcp_bridge_url ++ "/servers/" ++ server_id ++ "/tools"] ∧
       (get_server_tools server_id mcp_bridge_url t i).2.1 = i + 1 ∧
       (t i = ReqOutcome.reqError →
         (get_server_tools server_id mcp_bridge_url t i).2.2 = Except.ok (Json.arr [])) ∧
       (∀ r, t i = ReqOutcome.success r → 400 ≤ r.status → r.status < 600 →
         (get_server_tools server_id mcp_bridge_url t i).2.2 = Except.ok (Json.arr []))) := by
  intro url sid t i
  cases h : t i with
  | reqError =>
    refine ⟨⟨?_, ?_, fun _ => ?_, fun r _ _ _ => ?_⟩, ?_, ?_, fun _ => ?_, fun r _ _ _ => ?_⟩ <;>
      simp only [get_all_servers, get_server_tools, h]
  | success r0 =>
    have hrs : ∀ (r : HttpResponse), 400 ≤ r.status → r.status < 600 →
        raise_for_status r = Except.error (PyErr.httpError r.status) := by
      intro r h4 h6
      simp only [raise_for_status]
      rw [if_pos ⟨h4, h6⟩]
    refine ⟨⟨?_, ?_, fun he => ?_, fun r he h4 h6 => ?_⟩,
            ?_, ?_, fun he => ?_, fun r he h4 h6 => ?_⟩
    · simp only [get_all_servers, h]
      cases raise_for_status r0
      · rfl
      · cases jsonLoads r0.body with
        | none => rfl
        | some j => cases j <;> rfl
    · simp only [get_all_servers, h]
      cases raise_for_status r0
      · rfl
      · cases jsonLoads r0.body with
        | none => rfl
        | some j => cases j <;> rfl
    · cases he
    · injection he with hr
      subst hr
      simp only [get_all_servers, h, hrs r0 h4 h6]
    · simp only [get_server_tools, h]
      cases raise_for_status r0
      · rfl
      · cases jsonLoads r0.body with
        | none => rfl
        | some j => cases j <;> rfl
    · simp only [get_server_tools, h]
      cases raise_for_status r0
      · rfl
      · cases jsonLoads r0.body with
        | none => rfl
        | some j => cases j <;> rfl
    · cases he
    · injection he with hr
      subst hr
      simp only [get_server_tools, h, hrs r0 h4 h6]

/-! ## Claim C1 -/

/-- The double-unwrap path through a parsed tool-execution body, as the
claim describes it: `r['content'][0]['text']`. -/
def content0text (mcp : Json) : Except PyErr Json :=
  match getItem mcp "content" with
  | Except.ok content =>
    match getIndex0 content with
    | Except.ok first => getItem first "text"
    | Except.error e => Except.error e
  | Except.error e => Except.error e

/-- Claim C1: every successful result of `call_mcp_tool` is obtained by
unwrapping the double-encoded envelope exactly twice: the HTTP body parses
as JSON, the first element of its `content` array has a string `text`
field, and the returned value is `json.loads` of that text. -/
theorem C1_unwrap (resp : HttpResponse) (v : Json)
    (h : call_mcp_tool resp = Except.ok v) :
    ∃ mcp text, jsonLoads resp.body = some mcp ∧
      content0text mcp = Except.ok (Json.str text) ∧
      jsonLoads text = some v := by
  unfold call_mcp_tool at h
  split at h
  next e heqr => exact (Except.noConfusion h)
  next u heqr =>
    split at h
    next heqb => exact (Except.noConfusion h)
    next mcp heqb =>
      split at h
      next e heqc => exact (Except.noConfusion h)
      next content heqc =>
        split at h
        next e heq0 => exact (Except.noConfusion h)
        next first heq0 =>
          split at h
          next e heqt => exact (Except.noConfusion h)
          next rt heqt =>
            split at h
            next s =>
              split at h
              next w heql =>
                injection h with hw
                subst hw
                exact ⟨mcp, s, heqb, by simp only [content0text, heqc, heq0, heqt], heql⟩
              next heql => exact (Except.noConfusion h)
            next x => exact (Except.noConfusion h)

/-- The concrete tool-execution response of the C1 witness: the bridge
body holds a content array whose first element's text field is itself a
JSON-encoded result payload. -/
def c1Resp : HttpResponse :=
  ⟨200, "\x7b\"content\": [\x7b\"text\": \"\x7b\\\"result\\\": 42\x7d\"\x7d]\x7d"⟩

/-- Witness for claim C1 at the concrete response `c1Resp`. -/
theorem C1_witness :
    ∃ mcp text, jsonLoads c1Resp.body = some mcp ∧
      content0text mcp = Except.ok (Json.str text) ∧
      jsonLoads text = some (Json.obj [("result", Json.num 42)]) :=
  C1_unwrap c1Resp (Json.obj [("result", Json.num 42)]) rfl

/-! ## Claims C2 and C9: lemmas about the extractor -/

/-- `hasKey` over an append. -/
theorem hasKey_append (l m : List (String × Json)) (k : String) :
    hasKey (l ++ m) k = (hasKey l k || hasKey m k) := by
  simp [hasKey, List.any_append]

/-- `fillKeys` always returns an object holding both keys. -/
theorem fillKeys_obj (fields : List (String × Json)) (fill : String) :
    ∃ g, fillKeys fields fill = Json.obj g ∧
      hasKey g "tool_call" = true ∧ hasKey g "response" = true := by
  simp only [fillKeys]
  by_cases h1 : hasKey fields "tool_call" = true
  · rw [if_pos h1]
    by_cases h2 : hasKey fields "response" = true
    · rw [if_pos h2]
      exact ⟨fields, rfl, h1, h2⟩
    · rw [if_neg h2]
      exact ⟨_, rfl, by simp [hasKey_append, h1], by simp [hasKey_append, hasKey]⟩
  · rw [if_neg h1]
    by_cases h2 : hasKey (fields ++ [("tool_call", Json.null)]) "response" = true
    · rw [if_pos h2]
      exact ⟨_, rfl, by simp [hasKey_append, hasKey], h2⟩
    · rw [if_neg h2]
      exact ⟨_, rfl, by simp [hasKey_append, hasKey], by simp [hasKey_append, hasKey]⟩

/-- Accepted candidates are objects holding both keys. -/
theorem acceptCand_obj (c f : String) (j : Json) (h : acceptCand c f = some j) :
    ∃ g, j = Json.obj g ∧ hasKey g "tool_call" = true ∧ hasKey g "response" = true := by
  unfold acceptCand at h
  cases ht : truthyDict (clean_and_parse_json c) <;> rw [ht] at h
  · exact (Option.noConfusion h)
  · injection h with hj
    subst hj
    exact fillKeys_obj _ _

/-- A successful `firstAccepted` result is an object holding both keys. -/
theorem firstAccepted_obj : ∀ (l : List (String × String)) (j : Json),
    firstAccepted l = some j →
    ∃ g, j = Json.obj g ∧ hasKey g "tool_call" = true ∧ hasKey g "response" = true
  | [], j, h => (Option.noConfusion h)
  | cf :: rest, j, h => by
    unfold firstAccepted at h
    cases ha : acceptCand cf.1 cf.2 <;> rw [ha] at h
    · exact firstAccepted_obj rest j h
    · injection h with hj
      subst hj
      exact acceptCand_obj cf.1 cf.2 _ ha

/-- `firstAccepted` distributes over append. -/
theorem firstAccepted_append : ∀ (xs ys : List (String × String)),
    firstAccepted (xs ++ ys) =
      (match firstAccepted xs with
       | some j => some j
       | none => firstAccepted ys)
  | [], ys => rfl
  | cf :: rest, ys => by
    simp only [List.cons_append, firstAccepted]
    cases acceptCand cf.1 cf.2
    · exact firstAccepted_append rest ys
    · rfl

/-- `firstAccepted` on the list of one optional candidate is the bind the
source performs. -/
theorem firstAccepted_toList (o : Option (String × String)) :
    firstAccepted o.toList = o.bind (fun cf => acceptCand cf.1 cf.2) := by
  cases o with
  | none => rfl
  | some cf =>
    simp only [Option.toList, firstAccepted, Option.bind]
    cases acceptCand cf.1 cf.2 <;> rfl

/-- The source's step 3 loop is the first accepted candidate among the
non-blank pieces. -/
theorem step3loop_eq (fill : String) : ∀ (parts : List (List Char)),
    step3loop fill parts =
      firstAccepted ((parts.filter (fun p => trimChars p ≠ [])).map
        (fun p => (String.mk (trimChars p), fill)))
  | [] => rfl
  | p :: rest => by
    by_cases hp : trimChars p ≠ []
    · rw [List.filter_cons_of_pos (by simpa using hp)]
      simp only [step3loop, if_pos hp, List.map_cons, firstAccepted]
      cases acceptCand (String.mk (trimChars p)) fill
      · exact step3loop_eq fill rest
      · rfl
    · rw [List.filter_cons_of_neg (by simpa using hp)]
      simp only [step3loop, if_neg hp]
      exact step3loop_eq fill rest

/-- Claim C2 counterexample: on the input consisting of the two braces,
heuristic (1)'s candidate is that very text and `json.loads` of it IS a
JSON object (the empty dict), yet `process_llm_response` does not return
it: the guard `if response_data and ...` rejects the falsy empty dict and
the function falls through to the fallback, whose `response` field is the
whole stripped text instead of the empty remainder. -/
theorem C2_counterexample :
    cand1 "\x7b\x7d" = some ("\x7b\x7d", "") ∧
    clean_and_parse_json "\x7b\x7d" = some (Json.obj []) ∧
    process_llm_response "\x7b\x7d" =
      Json.obj [("tool_call", Json.null), ("response", Json.str "\x7b\x7d")] :=
  ⟨rfl, rfl, rfl⟩

/-- Claim C2 amended: `process_llm_response` tries its candidates in
exactly the claimed order -- (1) the trailing block from the last left
brace, (2) the first fenced json block, (3) every non-blank piece of the
triple-backtick split (the text outside the fences included), (4) first
left brace to last right brace -- each whitespace-normalised before
parsing, and returns the first that parses to a NON-EMPTY JSON object
(with absent `tool_call`/`response` keys filled from the text outside the
match); when none does, it returns the fallback
`tool_call = None, response = text.strip()`. -/
theorem C2_amended :
    ∀ (text : String), process_llm_response text = process_llm_response_amended text := by
  intro text
  unfold process_llm_response process_llm_response_amended candidateList
  rw [firstAccepted_append, firstAccepted_append, firstAccepted_append,
    firstAccepted_toList, firstAccepted_toList, firstAccepted_toList]
  cases h1 : (cand1 text).bind (fun cf => acceptCand cf.1 cf.2) with
  | some j => rfl
  | none =>
    cases h2 : (cand2 text).bind (fun cf => acceptCand cf.1 cf.2) with
    | some j => rfl
    | none =>
      by_cases h3 : (splitOnChars text.data ("```".data)).length > 1
      · simp only [cand3, if_pos h3, step3loop_eq]
        cases firstAccepted ((splitOnChars text.data ("```".data)).filter
            (fun p => trimChars p ≠ []) |>.map
              (fun p => (String.mk (trimChars p),
                String.mk (trimChars ((splitOnChars text.data ("```".data)).headD []))))) with
        | some j => rfl
        | none =>
          cases h4 : (cand4 text).bind (fun cf => acceptCand cf.1 cf.2) <;> rfl
      · simp only [cand3, if_neg h3, firstAccepted]
        cases h4 : (cand4 text).bind (fun cf => acceptCand cf.1 cf.2) <;> rfl

/-- Claim C9: `process_llm_response` is total and normalizing -- on every
input string it returns an object that holds both the `tool_call` and the
`response` key (each branch fills the missing keys, the fallback carries
`tool_call = None` and the stripped text). -/
theorem C9_total_normalizing :
    ∀ (text : String), ∃ g, process_llm_response text = Json.obj g ∧
      hasKey g "tool_call" = true ∧ hasKey g "response" = true := by
  intro text
  unfold process_llm_response
  cases h1 : (cand1 text).bind (fun cf => acceptCand cf.1 cf.2) with
  | some j =>
    rcases Option.bind_eq_some.mp h1 with ⟨cf, -, ha⟩
    rcases acceptCand_obj cf.1 cf.2 j ha with ⟨g, hg, hk1, hk2⟩
    exact ⟨g, hg ▸ rfl, hk1, hk2⟩
  | none =>
    cases h2 : (cand2 text).bind (fun cf => acceptCand cf.1 cf.2) with
    | some j =>
      rcases Option.bind_eq_some.mp h2 with ⟨cf, -, ha⟩
      rcases acceptCand_obj cf.1 cf.2 j ha with ⟨g, hg, hk1, hk2⟩
      exact ⟨g, hg ▸ rfl, hk1, hk2⟩
    | none =>
      by_cases h3 : (splitOnChars text.data ("```".data)).length > 1
      · simp only [if_pos h3]
        cases hs : step3loop (String.mk (trimChars ((splitOnChars text.data
            ("```".data)).headD []))) (splitOnChars text.data ("```".data)) with
        | some j =>
          rw [step3loop_eq] at hs
          rcases firstAccepted_obj _ j hs with ⟨g, hg, hk1, hk2⟩
          cases h4 : (cand4 text).bind (fun cf => acceptCand cf.1 cf.2) <;>
            exact ⟨g, hg ▸ rfl, hk1, hk2⟩
        | none =>
          cases h4 : (cand4 text).bind (fun cf => acceptCand cf.1 cf.2) with
          | some j =>
            rcases Option.bind_eq_some.mp h4 with ⟨cf, -, ha⟩
            rcases acceptCand_obj cf.1 cf.2 j ha with ⟨g, hg, hk1, hk2⟩
            exact ⟨g, hg ▸ rfl, hk1, hk2⟩
          | none => exact ⟨_, rfl, by simp [hasKey], by simp [hasKey]⟩
      · simp only [if_neg h3]
        cases h4 : (cand4 text).bind (fun cf => acceptCand cf.1 cf.2) with
        | some j =>
          rcases Option.bind_eq_some.mp h4 with ⟨cf, -, ha⟩
          rcases acceptCand_obj cf.1 cf.2 j ha with ⟨g, hg, hk1, hk2⟩
          exact ⟨g, hg ▸ rfl, hk1, hk2⟩
        | none => exact ⟨_, rfl, by simp [hasKey], by simp [hasKey]⟩

/-! ## Claim C8: lemmas about `quote` and `unquote` -/

set_option maxRecDepth 10000 in
/-- Hex digits decode back to their value. -/
theorem hexVal_hexDigitChar : ∀ d < 16, hexVal (hexDigitChar d) = some d := by decide

set_option maxRecDepth 10000 in
/-- No percent-escape character is a slash. -/
theorem pctByte_no_slash : ∀ b < 256, ((pctByte b).all (fun c => c != '/')) = true := by decide

/-- The UTF-8 bytes of a scalar value are bytes. -/
theorem utf8EncodeNat_bytes_lt (n : Nat) (hn : n < 1114112) :
    ∀ b ∈ utf8EncodeNat n, b < 256 := by
  intro b hb
  by_cases c1 : n < 128
  · simp only [utf8EncodeNat, if_pos c1, List.mem_singleton] at hb
    omega
  · by_cases c2 : n < 2048
    · simp only [utf8EncodeNat, if_neg c1, if_pos c2, List.mem_cons, List.mem_singleton,
        List.not_mem_nil, or_false] at hb
      rcases hb with rfl | rfl <;> omega
    · by_cases c3 : n < 65536
      · simp only [utf8EncodeNat, if_neg c1, if_neg c2, if_pos c3, List.mem_cons,
          List.not_mem_nil, or_false] at hb
        rcases hb with rfl | rfl | rfl <;> omega
      · simp only [utf8EncodeNat, if_neg c1, if_neg c2, if_neg c3, List.mem_cons,
          List.not_mem_nil, or_false] at hb
        rcases hb with rfl | rfl | rfl | rfl <;> omega

/-- The code point of a character is a Unicode scalar value. -/
theorem char_toNat_valid (c : Char) :
    c.toNat < 1114112 ∧ (c.toNat < 55296 ∨ 57344 ≤ c.toNat) := by
  have h : c.val.toNat < 55296 ∨ (57344 ≤ c.val.toNat ∧ c.val.toNat < 1114112) := c.valid
  show c.val.toNat < 1114112 ∧ (c.val.toNat < 55296 ∨ 57344 ≤ c.val.toNat)
  omega

/-- No character of one quoted character is a slash. -/
theorem quoteChar_no_slash (c : Char) : ((quoteChar c).all (fun c => c != '/')) = true := by
  unfold quoteChar
  by_cases h : isUnreservedChar c = true
  · rw [if_pos h]
    simp only [List.all_cons, List.all_nil, Bool.and_true]
    have hne : ¬ c = '/' := by
      intro he
      subst he
      simp [isUnreservedChar] at h
    simpa using hne
  · rw [if_neg h]
    have hb := utf8EncodeNat_bytes_lt c.toNat (char_toNat_valid c).1
    generalize utf8EncodeNat c.toNat = bs at hb
    induction bs with
    | nil => rfl
    | cons b rest ih =>
      simp only [List.map_cons, List.flatten_cons, List.all_append]
      rw [pctByte_no_slash b (hb b (List.mem_cons_self b rest)),
        ih (fun x hx => hb x (List.mem_cons_of_mem b hx))]
      rfl

/-- Decoding the UTF-8 bytes of a scalar value in front of any byte tail
yields the character and one decode step less fuel for the tail. -/
theorem utf8_decode_encode (n : Nat) (h1 : n < 1114112) (h2 : n < 55296 ∨ 57344 ≤ n)
    (rest : List Nat) (fuel : Nat) :
    utf8DecodeAux (fuel + 1) (utf8EncodeNat n ++ rest) =
      Char.ofNat n :: utf8DecodeAux fuel rest := by
  by_cases c1 : n < 128
  · simp only [utf8EncodeNat, if_pos c1, List.cons_append, List.nil_append]
    simp only [utf8DecodeAux]
    rw [if_pos c1]
  · by_cases c2 : n < 2048
    · simp only [utf8EncodeNat, if_neg c1, if_pos c2, List.cons_append, List.nil_append]
      simp only [utf8DecodeAux]
      rw [if_neg (by omega), if_pos (by constructor <;> omega)]
      have hc : isContByte (128 + n % 64) = true := by
        simp only [isContByte, Bool.and_eq_true, decide_eq_true_eq]
        omega
      rw [if_pos hc]
      rw [show (192 + n / 64 - 192) * 64 + (128 + n % 64 - 128) = n from by omega]
    · by_cases c3 : n < 65536
      · simp only [utf8EncodeNat, if_neg c1, if_neg c2, if_pos c3, List.cons_append,
          List.nil_append]
        simp only [utf8DecodeAux]
        rw [if_neg (by omega), if_neg (by omega), if_pos (by constructor <;> omega)]
        have hc : (isContByte (128 + n / 64 % 64) && isContByte (128 + n % 64)) = true := by
          simp only [isContByte, Bool.and_eq_true, decide_eq_true_eq]
          omega
        rw [if_pos hc]
        rw [show (224 + n / 4096 - 224) * 4096 + (128 + n / 64 % 64 - 128) * 64 +
          (128 + n % 64 - 128) = n from by omega]
        rw [if_pos ⟨by omega, h2⟩]
      · simp only [utf8EncodeNat, if_neg c1, if_neg c2, if_neg c3, List.cons_append,
          List.nil_append]
        simp only [utf8DecodeAux]
        rw [if_neg (by omega), if_neg (by omega), if_neg (by omega),
          if_pos (by constructor <;> omega)]
        have hc : (isContByte (128 + n / 4096 % 64) && isContByte (128 + n / 64 % 64) &&
            isContByte (128 + n % 64)) = true := by
          simp only [isContByte, Bool.and_eq_true, decide_eq_true_eq]
          omega
        rw [if_pos hc]
        rw [show (240 + n / 262144 - 240) * 262144 + (128 + n / 4096 % 64 - 128) * 4096 +
          (128 + n / 64 % 64 - 128) * 64 + (128 + n % 64 - 128) = n from by omega]
        rw [if_pos ⟨by omega, by omega⟩]

/-- With enough fuel, decoding the concatenated UTF-8 encodings of
characters recovers them. -/
theorem utf8_decode_flat_aux : ∀ (ds : List Char) (fuel : Nat), ds.length ≤ fuel →
    utf8DecodeAux fuel ((ds.map (fun d => utf8EncodeNat d.toNat)).flatten) = ds
  | [], fuel, _ => by cases fuel <;> rfl
  | d :: ds, fuel, hf => by
    rcases char_toNat_valid d with ⟨h1, h2⟩
    obtain ⟨f, rfl⟩ : ∃ f, fuel = f + 1 := ⟨fuel - 1, by simp at hf; omega⟩
    simp only [List.map_cons, List.flatten_cons]
    rw [utf8_decode_encode d.toNat h1 h2,
      utf8_decode_flat_aux ds f (by simp at hf; omega), Char.ofNat_toNat]

/-- Each scalar value encodes to at least one byte. -/
theorem utf8EncodeNat_length_pos (n : Nat) : 1 ≤ (utf8EncodeNat n).length := by
  simp only [utf8EncodeNat]
  split_ifs <;> simp

/-- Decoding the concatenated UTF-8 encodings of characters recovers them. -/
theorem utf8_decode_flat (ds : List Char) :
    utf8DecodeBytes ((ds.map (fun d => utf8EncodeNat d.toNat)).flatten) = ds := by
  have hlen : ds.length ≤ ((ds.map (fun d => utf8EncodeNat d.toNat)).flatten).length := by
    induction ds with
    | nil => simp
    | cons d ds ih =>
      simp only [List.map_cons, List.flatten_cons, List.length_append, List.length_cons]
      have := utf8EncodeNat_length_pos d.toNat
      omega
  exact utf8_decode_flat_aux ds _ hlen

/-- The tokens `unquote`'s scanner produces for one quoted character. -/
def quoteTok (c : Char) : List PctTok :=
  if isUnreservedChar c then [PctTok.lit c] else (utf8EncodeNat c.toNat).map PctTok.byte

/-- One scan step over a literal character. -/
theorem pctToksAux_lit (fuel : Nat) (c : Char) (rest : List Char) (hc : ¬ c = percentC) :
    pctToksAux (fuel + 1) (c :: rest) = PctTok.lit c :: pctToksAux fuel rest := by
  simp only [pctToksAux]
  rw [if_neg hc]

/-- One scan step over a percent-escape. -/
theorem pctToksAux_pct (fuel : Nat) (b : Nat) (rest : List Char) (hb : b < 256) :
    pctToksAux (fuel + 1) (pctByte b ++ rest) = PctTok.byte b :: pctToksAux fuel rest := by
  have e1 := hexVal_hexDigitChar (b / 16) (by omega)
  have e2 := hexVal_hexDigitChar (b % 16) (by omega)
  show pctToksAux (fuel + 1)
    (percentC :: hexDigitChar (b / 16) :: hexDigitChar (b % 16) :: rest) =
    PctTok.byte b :: pctToksAux fuel rest
  simp only [pctToksAux, e1, e2, eq_self_iff_true, if_true]
  rw [show b / 16 * 16 + b % 16 = b from by omega]

/-- Scanning a run of percent-escapes. -/
theorem pctToksAux_bytes : ∀ (bs : List Nat), (∀ b ∈ bs, b < 256) →
    ∀ (rest : List Char) (fuel : Nat),
    pctToksAux (fuel + bs.length) ((bs.map pctByte).flatten ++ rest) =
      bs.map PctTok.byte ++ pctToksAux fuel rest
  | [], _, rest, fuel => by simp
  | b :: bs, h, rest, fuel => by
    simp only [List.map_cons, List.flatten_cons, List.length_cons, List.append_assoc,
      List.cons_append]
    rw [show fuel + (bs.length + 1) = (fuel + bs.length) + 1 from by omega,
      pctToksAux_pct _ b _ (h b (List.mem_cons_self b bs)),
      pctToksAux_bytes bs (fun x hx => h x (List.mem_cons_of_mem b hx)) rest fuel]

/-- An always-safe character is not a percent sign. -/
theorem unreserved_ne_percent (c : Char) (h : isUnreservedChar c = true) : ¬ c = percentC := by
  intro he
  subst he
  exact absurd h (by decide)

/-- Scanning the quoted text yields the per-character tokens. -/
theorem pctToksAux_quote : ∀ (cs : List Char) (fuel : Nat),
    pctToksAux (fuel + ((cs.map quoteTok).flatten).length) ((cs.map quoteChar).flatten) =
      (cs.map quoteTok).flatten
  | [], fuel => by
    simp only [List.map_nil, List.flatten_nil, List.length_nil, Nat.add_zero]
    cases fuel <;> rfl
  | c :: cs, fuel => by
    by_cases h : isUnreservedChar c = true
    · simp only [List.map_cons, List.flatten_cons, quoteTok, quoteChar, if_pos h,
        List.singleton_append, List.length_cons]
      rw [show fuel + (((cs.map quoteTok).flatten).length + 1) =
        (fuel + ((cs.map quoteTok).flatten).length) + 1 from by omega]
      rw [pctToksAux_lit _ c _ (unreserved_ne_percent c h), pctToksAux_quote cs fuel]
    · simp only [List.map_cons, List.flatten_cons, quoteTok, quoteChar, if_neg h,
        List.length_append, List.length_map]
      rw [show fuel + ((utf8EncodeNat c.toNat).length + ((cs.map quoteTok).flatten).length) =
        (fuel + ((cs.map quoteTok).flatten).length) + (utf8EncodeNat c.toNat).length from by
          omega]
      rw [pctToksAux_bytes (utf8EncodeNat c.toNat)
        (utf8EncodeNat_bytes_lt c.toNat (char_toNat_valid c).1) _ _,
        pctToksAux_quote cs fuel]

/-- The token list of a quoted text is not longer than its text. -/
theorem quoteTok_length_le : ∀ (cs : List Char),
    ((cs.map quoteTok).flatten).length ≤ ((cs.map quoteChar).flatten).length
  | [] => Nat.le_refl _
  | c :: cs => by
    have ih := quoteTok_length_le cs
    simp only [List.map_cons, List.flatten_cons, List.length_append]
    have hc : (quoteTok c).length ≤ (quoteChar c).length := by
      by_cases h : isUnreservedChar c = true
      · simp [quoteTok, quoteChar, if_pos h]
      · simp only [quoteTok, quoteChar, if_neg h, List.length_map]
        have : ∀ (bs : List Nat), ((bs.map pctByte).flatten).length = 3 * bs.length := by
          intro bs
          induction bs with
          | nil => rfl
          | cons b bs ih2 => simp [pctByte, ih2]; omega
        rw [this]
        omega
    omega

/-- Collecting a run of escape bytes into the accumulator. -/
theorem pctDecode_bytes : ∀ (bs : List Nat) (ts : List PctTok) (acc : List Nat),
    pctDecode (bs.map PctTok.byte ++ ts) acc = pctDecode ts (bs.reverse ++ acc)
  | [], ts, acc => by simp
  | b :: bs, ts, acc => by
    simp only [List.map_cons, List.cons_append, pctDecode, List.append_eq]
    rw [pctDecode_bytes bs ts (b :: acc)]
    simp [List.append_assoc]

/-- Decoding the token stream of quoted text appends the decoded pending
characters and the text itself. -/
theorem pctDecode_quoteToks : ∀ (cs ds : List Char),
    pctDecode ((cs.map quoteTok).flatten)
      (((ds.map (fun d => utf8EncodeNat d.toNat)).flatten).reverse) = ds ++ cs
  | [], ds => by
    simp only [List.map_nil, List.flatten_nil, pctDecode, List.reverse_reverse,
      List.append_nil]
    exact utf8_decode_flat ds
  | c :: cs, ds => by
    by_cases h : isUnreservedChar c = true
    · simp only [List.map_cons, List.flatten_cons, quoteTok, if_pos h,
        List.singleton_append, pctDecode, List.reverse_reverse]
      rw [utf8_decode_flat ds]
      have := pctDecode_quoteToks cs []
      simp only [List.map_nil, List.flatten_nil, List.reverse_nil, List.nil_append] at this
      rw [this]
    · simp only [List.map_cons, List.flatten_cons, quoteTok, if_neg h]
      rw [pctDecode_bytes]
      rw [show (utf8EncodeNat c.toNat).reverse ++
          (((ds.map (fun d => utf8EncodeNat d.toNat)).flatten)).reverse =
          ((((ds ++ [c]).map (fun d => utf8EncodeNat d.toNat)).flatten)).reverse from by
        simp [List.reverse_append]]
      rw [pctDecode_quoteToks cs (ds ++ [c])]
      simp

/-- No character of the quoted text is a slash. -/
theorem quote_no_slash_chars : ∀ (cs : List Char),
    (((cs.map quoteChar).flatten).all (fun c => c != '/')) = true
  | [] => rfl
  | c :: cs => by
    simp only [List.map_cons, List.flatten_cons, List.all_append]
    rw [quoteChar_no_slash c, quote_no_slash_chars cs]
    rfl

/-! ## Claim C8 -/

/-- Claim C8: `read_resource` percent-encodes the resource URI with
nothing exempt before splicing it into the request path; the encoded
segment contains no slash at all (escaped or not every `/` becomes
`%2F`), and decoding it with `urllib.parse.unquote` round-trips to the
original URI. -/
theorem C8_percent_encoding :
    ∀ (resource_uri : String),
      (((quote resource_uri).data).all (fun c => c != '/')) = true ∧
      unquote (quote resource_uri) = resource_uri ∧
      ∀ (base_url server_id : String),
        read_resource_url base_url server_id resource_uri =
          base_url ++ "/servers/" ++ server_id ++ "/resources/" ++ quote resource_uri := by
  intro uri
  refine ⟨?_, ?_, fun base sid => rfl⟩
  · exact quote_no_slash_chars uri.data
  · rcases uri with ⟨cs⟩
    show String.mk (pctDecode (pctToks ((cs.map quoteChar).flatten)) []) = String.mk cs
    unfold pctToks
    have hle := quoteTok_length_le cs
    rw [show ((cs.map quoteChar).flatten).length =
      (((cs.map quoteChar).flatten).length - ((cs.map quoteTok).flatten).length) +
        ((cs.map quoteTok).flatten).length from by omega]
    rw [pctToksAux_quote cs _]
    have := pctDecode_quoteToks cs []
    simp only [List.map_nil, List.flatten_nil, List.reverse_nil, List.nil_append] at this
    rw [this]
